import Mathlib

/-!
Shallow embedding of the `PORTFOLIO-V.2` animated-background widget:
the Mulberry32 seeded PRNG (`src/utils/seededRandom.ts`) and the grid /
frame logic of the canvas component (`computeGrid`, the `draw` loop).

JavaScript 32-bit bitwise semantics are modelled over `Nat` with explicit
`% 2^32` reductions: `x >>> 0` is `% UINT32`, `Math.imul a b` is
`a * b % UINT32`, and the signed/unsigned distinction is irrelevant
because only bit patterns flow into xor / shift / or operations.
Fractional JS numbers are modelled as exact rationals `ℚ`.
-/

/-- `2^32`, the modulus of all JS 32-bit bitwise coercions. -/
def UINT32 : ℕ := 4294967296

/-- `clamp` from the component: `Math.max(min, Math.min(max, v))`. -/
def clamp (v mn mx : ℚ) : ℚ := max mn (min mx v)

/-- `lerp` from the component: `a + (b - a) * t`. -/
def lerp (a b t : ℚ) : ℚ := a + (b - a) * t

/-- `Math.round` on a rational: floor of `x + 1/2` (JS rounds half toward +∞). -/
def jsRound (x : ℚ) : ℤ := ⌊x + 1/2⌋

/-- Seed normalization in `createSeededRandom`:
`let s = seed >>> 0 || 0x9e3779b9` — reduce to u32, replace 0 by the constant. -/
def initState (seed : ℕ) : ℕ :=
  if seed % UINT32 = 0 then 0x9e3779b9 else seed % UINT32

/-- First mixing line of Mulberry32, on the already-incremented state `s1`:
`t = Math.imul(t ^ (t >>> 15), t | 1)`. -/
def mixA (s1 : ℕ) : ℕ := ((s1 ^^^ (s1 >>> 15)) * (s1 ||| 1)) % UINT32

/-- Second mixing line: `t ^= t + Math.imul(t ^ (t >>> 7), t | 61)`. -/
def mixB (s1 : ℕ) : ℕ :=
  mixA s1 ^^^ ((mixA s1 + ((mixA s1 ^^^ (mixA s1 >>> 7)) * (mixA s1 ||| 61)) % UINT32) % UINT32)

/-- Final line of the Mulberry32 mixer: `(t ^ (t >>> 14)) >>> 0`
(the raw u32 output before division by `2^32`). -/
def mix (s1 : ℕ) : ℕ := mixB s1 ^^^ (mixB s1 >>> 14)

/-- One call of the generator returned by `createSeededRandom`:
`s += 0x6D2B79F5` (as a u32 pattern), then mix. Returns (raw u32 output, new state). -/
def mulberryStep (s : ℕ) : ℕ × ℕ :=
  let s1 := (s + 0x6D2B79F5) % UINT32
  (mix s1, s1)

/-- Internal PRNG state after `n` calls, starting from state `s`. -/
def stateAt (s : ℕ) : ℕ → ℕ
  | 0 => s
  | n + 1 => (mulberryStep (stateAt s n)).2

/-- Raw u32 output of the `(n+1)`-st call (0-indexed position `n`). -/
def outputAt (s : ℕ) (n : ℕ) : ℕ := (mulberryStep (stateAt s n)).1

/-- The value returned by the `n`-th call of `rand()`: the raw u32 divided by
`4294967296`. -/
def randAt (s : ℕ) (n : ℕ) : ℚ := (outputAt s n : ℚ) / 4294967296

/-- Grid metrics produced by `computeGrid`: column/row counts, cell pixel
size, and centering offsets. -/
structure GridMetrics where
  cols : ℤ
  rows : ℤ
  cell : ℚ
  offsetX : ℤ
  offsetY : ℤ
  deriving Repr, DecidableEq

/-- Cell size from `computeGrid`:
`clamp(Math.round(baseCell * densityMul), 16, 24)` with `baseCell = 20`. -/
def cellSize (densityMul : ℚ) : ℚ := clamp ((jsRound (20 * densityMul) : ℤ) : ℚ) 16 24

/-- The layout part of `computeGrid`. `widthCss`/`heightCss` are the canvas
CSS dimensions, `density` the optional density prop, `isMobile` the
`window.innerWidth < 768` test. The density default is
`density ?? (isMobile ? 0.9 : 1.0)`; `cols = Math.floor(widthCss / cell)`,
`rows = Math.floor(heightCss / cell)`, and the offsets split the leftover
margin: `Math.floor((widthCss - cols * cell) / 2)` and likewise for height. -/
def computeGridMetrics (widthCss heightCss : ℚ) (density : Option ℚ) (isMobile : Bool) :
    GridMetrics :=
  let densityMul := density.getD (if isMobile then 9/10 else 1)
  let cell := cellSize densityMul
  let cols := ⌊widthCss / cell⌋
  let rows := ⌊heightCss / cell⌋
  let totalW := (cols : ℚ) * cell
  let totalH := (rows : ℚ) * cell
  { cols := cols, rows := rows, cell := cell,
    offsetX := ⌊(widthCss - totalW) / 2⌋, offsetY := ⌊(heightCss - totalH) / 2⌋ }

/-- One entry of the base glyph buffer: `Math.floor(rand() * glyphs.length)`,
truncated to 16 bits by the `Uint16Array` store. -/
def glyphIndexOf (r : ℚ) (L : ℕ) : ℕ := (⌊r * L⌋).toNat % 65536

/-- The base glyph buffer filled by `computeGrid`: one PRNG draw per cell,
drawn consecutively starting from PRNG state `s`. -/
def baseBuffer (s : ℕ) (totalCells L : ℕ) : List ℕ :=
  (List.range totalCells).map (fun i => glyphIndexOf (randAt s i) L)

/-- `seedKey` from the component: `(w * 73856093) ^ (h * 19349663)` with JS
32-bit bitwise semantics. The signed int32 result is immediately reduced by
`seed >>> 0` inside `createSeededRandom`, so the unsigned pattern is kept. -/
def seedKey (w h : ℕ) : ℕ := Nat.xor (w * 73856093 % UINT32) (h * 19349663 % UINT32)

/-- Everything `computeGrid` produces: backing-store canvas size, grid
metrics, and the freshly generated base glyph buffer. -/
structure GridRunOutput where
  canvasW : ℤ
  canvasH : ℤ
  metrics : GridMetrics
  buf : List ℕ
  deriving Repr, DecidableEq

/-- The full grid computation as performed on mount: the PRNG is seeded from
the rounded window size `(w, h)`, the canvas backing store is
`Math.max(1, Math.floor(cssSize * dpr))`, the metrics come from
`computeGridMetrics` (with `isMobile = w < 768`), and the base buffer is
filled with `cols * rows` consecutive PRNG draws. -/
def computeGridRun (w h : ℕ) (widthCss heightCss dpr : ℚ) (density : Option ℚ)
    (L : ℕ) : GridRunOutput :=
  let gm := computeGridMetrics widthCss heightCss density (decide (w < 768))
  { canvasW := max 1 ⌊widthCss * dpr⌋
    canvasH := max 1 ⌊heightCss * dpr⌋
    metrics := gm
    buf := baseBuffer (initState (seedKey w h)) (gm.cols * gm.rows).toNat L }

/-- A transient scramble entry: replacement glyph index and expiry time
(the source field `until` is a Lean keyword, hence `untilMs`). -/
structure ScrambleCell where
  glyphIndex : ℕ
  untilMs : ℚ
  deriving Repr, DecidableEq

/-- The scramble map (`Map<number, ScrambleCell>`), modelled as an
association list; `mapSet` keeps keys unique like the JS `Map.set`. -/
abbrev ScrambleMap := List (ℕ × ScrambleCell)

/-- `scrambleMap.set(k, v)`: insert or overwrite the entry for key `k`. -/
def mapSet (m : ScrambleMap) (k : ℕ) (v : ScrambleCell) : ScrambleMap :=
  (k, v) :: m.filter (fun p => !(p.1 == k))

/-- `scrambleMap.get(k)`. -/
def mapGet (m : ScrambleMap) (k : ℕ) : Option ScrambleCell :=
  (m.find? (fun p => p.1 == k)).map Prod.snd

/-- The per-frame expiry purge: `if (vcell.until <= now) scrambleMap.delete(k)`
for every entry, i.e. keep exactly the entries with `now < until`. -/
def mapPurge (m : ScrambleMap) (now : ℚ) : ScrambleMap :=
  m.filter (fun p => ! decide (p.2.untilMs ≤ now))

/-- Configuration of the `draw` loop relevant to scramble and parallax:
the (defaulted) props and the environment flags read by the frame. -/
structure FrameCfg where
  parallaxStrength : ℚ
  scrambleFrequency : ℚ
  reduced : Bool
  isMobile : Bool
  deriving Repr, DecidableEq

/-- `effectiveScrambleBase()`: `(isMobile() ? 0.6 : 1) * scrambleFrequency`. -/
def effectiveScrambleBase (cfg : FrameCfg) : ℚ :=
  (if cfg.isMobile then 3/5 else 1) * cfg.scrambleFrequency

/-- The parallax target of a frame:
`-scrollTarget * (reduced ? 0 : parallaxStrength)`. -/
def parallaxTarget (cfg : FrameCfg) (scrollTarget : ℚ) : ℚ :=
  -scrollTarget * (if cfg.reduced then 0 else cfg.parallaxStrength)

/-- Number of cells scrambled in one burst:
`Math.max(1, Math.floor(totalCells * clamp(p, 0.01, 0.12)))`. -/
def scrambleCount (totalCells : ℕ) (p : ℚ) : ℕ :=
  max 1 (⌊(totalCells : ℚ) * clamp p (1/100) (12/100)⌋).toNat

/-- Cell index chosen by the i-th insertion:
`Math.floor(Math.random() * totalCells)`; `(oracle i).1` is that
`Math.random()` draw. -/
def batchIdx (oracle : ℕ → ℚ × ℚ × ℚ) (totalCells : ℕ) (i : ℕ) : ℕ :=
  (⌊(oracle i).1 * totalCells⌋).toNat

/-- Entry stored by the i-th insertion: replacement glyph
`Math.floor(Math.random() * glyphArray.length)` and expiry
`now + 200 + Math.random() * 150`; `(oracle i).2.1` is the ttl draw and
`(oracle i).2.2` the glyph draw. -/
def batchCell (oracle : ℕ → ℚ × ℚ × ℚ) (L : ℕ) (now : ℚ) (i : ℕ) : ScrambleCell :=
  { glyphIndex := (⌊(oracle i).2.2 * L⌋).toNat
    untilMs := now + (200 + (oracle i).2.1 * 150) }

/-- The burst-insertion loop body (`for (let i = 0; i < count; i++) ...`). -/
def insertBatch (m : ScrambleMap) (oracle : ℕ → ℚ × ℚ × ℚ)
    (count totalCells L : ℕ) (now : ℚ) : ScrambleMap :=
  (List.range count).foldl
    (fun acc i => mapSet acc (batchIdx oracle totalCells i) (batchCell oracle L now i)) m

/-- The scramble probability of a frame, from the smoothed velocity `v`:
`cap = clamp(v * 1.6, 0, 0.22)` and `p = clamp(freq * cap, 0, 0.16)`. -/
def burstP (cfg : FrameCfg) (v : ℚ) : ℚ :=
  clamp (effectiveScrambleBase cfg * clamp (v * (8/5)) 0 (11/50)) 0 (4/25)

/-- The scramble-maintenance portion of one `draw` frame: when reduced
motion is off, gate the burst on `p > 0.005 && Math.random() < 0.85`
(`gate` being that draw), insert the batch, then purge expired entries;
when reduced motion is on, clear the map. -/
def scramblePhase (cfg : FrameCfg) (m : ScrambleMap) (v gate : ℚ)
    (oracle : ℕ → ℚ × ℚ × ℚ) (now : ℚ) (totalCells L : ℕ) : ScrambleMap :=
  if cfg.reduced then []
  else
    mapPurge
      (if 1/200 < burstP cfg v ∧ gate < 17/20 then
          insertBatch m oracle (scrambleCount totalCells (burstP cfg v)) totalCells L now
        else m)
      now

/-- Glyph index drawn for cell `idx` in the render pass:
`scrambled ? scrambled.glyphIndex : base[idx]`. -/
def renderedGlyphIndex (m : ScrambleMap) (base : List ℕ) (idx : ℕ) : ℕ :=
  match mapGet m idx with
  | some sc => sc.glyphIndex
  | none => base.getD idx 0

theorem UINT32_eq_pow : UINT32 = 2 ^ 32 := rfl

theorem UINT32_pos : 0 < UINT32 := by norm_num [UINT32]

theorem xor_lt_u32 {a b : ℕ} (ha : a < UINT32) (hb : b < UINT32) :
    a ^^^ b < UINT32 := by
  rw [UINT32_eq_pow] at ha hb ⊢
  exact Nat.xor_lt_two_pow ha hb

theorem shiftRight_le_self (a k : ℕ) : a >>> k ≤ a := by
  rw [Nat.shiftRight_eq_div_pow]
  exact Nat.div_le_self _ _

theorem mixB_lt (s1 : ℕ) : mixB s1 < UINT32 :=
  xor_lt_u32 (Nat.mod_lt _ UINT32_pos) (Nat.mod_lt _ UINT32_pos)

theorem mix_lt (s1 : ℕ) : mix s1 < UINT32 :=
  xor_lt_u32 (mixB_lt s1) (lt_of_le_of_lt (shiftRight_le_self _ _) (mixB_lt s1))

theorem outputAt_lt (s n : ℕ) : outputAt s n < UINT32 := by
  unfold outputAt mulberryStep
  exact mix_lt _

theorem randAt_nonneg (s n : ℕ) : 0 ≤ randAt s n := by
  unfold randAt
  positivity

theorem randAt_lt_one (s n : ℕ) : randAt s n < 1 := by
  unfold randAt
  rw [div_lt_one (by norm_num)]
  have h := outputAt_lt s n
  rw [UINT32_eq_pow] at h
  exact_mod_cast lt_of_lt_of_le h (by norm_num)

/-- C4: every PRNG value lies in `[0, 1)`, for any seed (including one whose
u32 reduction is 0) and any call position. -/
theorem randAt_mem_Ico (seed n : ℕ) :
    0 ≤ randAt (initState seed) n ∧ randAt (initState seed) n < 1 :=
  ⟨randAt_nonneg _ n, randAt_lt_one _ n⟩

/-- C4 witness: the first value from seed 0 is in `[0,1)`. -/
theorem randAt_mem_Ico_witness :
    0 ≤ randAt (initState 0) 0 ∧ randAt (initState 0) 0 < 1 :=
  randAt_mem_Ico 0 0

/-- C3: the PRNG is deterministic — two generators created with the same
seed produce identical values at every call position. -/
theorem prng_deterministic (seed1 seed2 : ℕ) (hseed : seed1 = seed2) (n : ℕ) :
    randAt (initState seed1) n = randAt (initState seed2) n := by
  subst hseed; rfl

/-- C3 witness: two generators seeded with 123456 agree at position 7. -/
theorem prng_deterministic_witness :
    randAt (initState 123456) 7 = randAt (initState 123456) 7 :=
  prng_deterministic 123456 123456 rfl 7

theorem cellSize_bounds (d : ℚ) : 16 ≤ cellSize d ∧ cellSize d ≤ 24 := by
  unfold cellSize clamp
  exact ⟨le_max_left _ _, max_le (by norm_num) (min_le_left _ _)⟩

theorem cellSize_pos (d : ℚ) : 0 < cellSize d :=
  lt_of_lt_of_le (by norm_num) (cellSize_bounds d).1

theorem computeGridMetrics_cell (w h : ℚ) (density : Option ℚ) (m : Bool) :
    (computeGridMetrics w h density m).cell =
      cellSize (density.getD (if m then 9/10 else 1)) := rfl

theorem computeGridMetrics_cols (w h : ℚ) (density : Option ℚ) (m : Bool) :
    (computeGridMetrics w h density m).cols =
      ⌊w / (computeGridMetrics w h density m).cell⌋ := rfl

theorem computeGridMetrics_rows (w h : ℚ) (density : Option ℚ) (m : Bool) :
    (computeGridMetrics w h density m).rows =
      ⌊h / (computeGridMetrics w h density m).cell⌋ := rfl

theorem computeGridMetrics_offsetX (w h : ℚ) (density : Option ℚ) (m : Bool) :
    (computeGridMetrics w h density m).offsetX =
      ⌊(w - ((computeGridMetrics w h density m).cols : ℚ) *
        (computeGridMetrics w h density m).cell) / 2⌋ := rfl

theorem computeGridMetrics_offsetY (w h : ℚ) (density : Option ℚ) (m : Bool) :
    (computeGridMetrics w h density m).offsetY =
      ⌊(h - ((computeGridMetrics w h density m).rows : ℚ) *
        (computeGridMetrics w h density m).cell) / 2⌋ := rfl

theorem floor_div_nonneg {w c : ℚ} (hw : 0 ≤ w) (hc : 0 < c) : 0 ≤ ⌊w / c⌋ :=
  Int.le_floor.mpr (by push_cast; exact div_nonneg hw hc.le)

theorem floor_div_mul_le {w c : ℚ} (hc : 0 < c) : (⌊w / c⌋ : ℚ) * c ≤ w := by
  have h := Int.floor_le (w / c)
  calc (⌊w / c⌋ : ℚ) * c ≤ (w / c) * c := mul_le_mul_of_nonneg_right h hc.le
    _ = w := div_mul_cancel₀ w hc.ne.symm

theorem sub_floor_div_mul_lt_self {w c : ℚ} (hc : 0 < c) :
    w - (⌊w / c⌋ : ℚ) * c < c := by
  have h : w / c < ⌊w / c⌋ + 1 := Int.lt_floor_add_one (w / c)
  have h2 : w < ((⌊w / c⌋ : ℚ) + 1) * c := by
    calc w = (w / c) * c := (div_mul_cancel₀ w hc.ne.symm).symm
      _ < ((⌊w / c⌋ : ℚ) + 1) * c := by
        exact mul_lt_mul_of_pos_right h hc
  nlinarith

/-- C5: for every density multiplier (the prop may be absent or take any
value, including 0 or 100), the computed cell size lies in `[16, 24]`. -/
theorem grid_cell_clamped (w h : ℚ) (density : Option ℚ) (m : Bool) :
    16 ≤ (computeGridMetrics w h density m).cell ∧
      (computeGridMetrics w h density m).cell ≤ 24 := by
  rw [computeGridMetrics_cell]
  exact cellSize_bounds _

/-- C6: for every viewport size (nonnegative CSS dimensions), the column and
row counts are nonnegative integers with `cols * cell ≤ widthCss` and
`rows * cell ≤ heightCss`. -/
theorem grid_cols_rows_bounds (w h : ℚ) (density : Option ℚ) (m : Bool)
    (hw : 0 ≤ w) (hh : 0 ≤ h) :
    0 ≤ (computeGridMetrics w h density m).cols ∧
    0 ≤ (computeGridMetrics w h density m).rows ∧
    ((computeGridMetrics w h density m).cols : ℚ) *
      (computeGridMetrics w h density m).cell ≤ w ∧
    ((computeGridMetrics w h density m).rows : ℚ) *
      (computeGridMetrics w h density m).cell ≤ h := by
  have hc : 0 < (computeGridMetrics w h density m).cell := by
    rw [computeGridMetrics_cell]; exact cellSize_pos _
  refine ⟨?_, ?_, ?_, ?_⟩
  · rw [computeGridMetrics_cols]; exact floor_div_nonneg hw hc
  · rw [computeGridMetrics_rows]; exact floor_div_nonneg hh hc
  · rw [computeGridMetrics_cols]; exact floor_div_mul_le hc
  · rw [computeGridMetrics_rows]; exact floor_div_mul_le hc

/-- C6 witness: the bounds hold concretely at viewport 1024×768 with the
default density on desktop. -/
theorem grid_cols_rows_bounds_witness :
    0 ≤ (computeGridMetrics 1024 768 none false).cols ∧
    0 ≤ (computeGridMetrics 1024 768 none false).rows ∧
    ((computeGridMetrics 1024 768 none false).cols : ℚ) *
      (computeGridMetrics 1024 768 none false).cell ≤ 1024 ∧
    ((computeGridMetrics 1024 768 none false).rows : ℚ) *
      (computeGridMetrics 1024 768 none false).cell ≤ 768 :=
  grid_cols_rows_bounds 1024 768 none false (by norm_num) (by norm_num)

theorem glyphIndexOf_lt {r : ℚ} (L : ℕ) (hL : 1 ≤ L) (h0 : 0 ≤ r) (h1 : r < 1) :
    glyphIndexOf r L < L := by
  unfold glyphIndexOf
  have hLpos : (0 : ℚ) < L := by exact_mod_cast hL
  have hq : r * L < L := by nlinarith
  have hfl : ⌊r * (L : ℚ)⌋ < (L : ℤ) := Int.floor_lt.mpr (by exact_mod_cast hq)
  omega

theorem baseBuffer_getD_lt (s n L i : ℕ) (hL : 1 ≤ L) (hi : i < n) :
    (baseBuffer s n L).getD i 0 < L := by
  unfold baseBuffer
  rw [List.getD_eq_getElem?_getD, List.getElem?_map, List.getElem?_range hi,
    Option.map_some', Option.getD_some]
  exact glyphIndexOf_lt L hL (randAt_nonneg s i) (randAt_lt_one s i)

/-- C10: provided the glyph alphabet is non-empty, every entry of the base
glyph buffer is a valid glyph index strictly below the alphabet length, so
the render pass of a non-scrambled cell (one with no scramble entry) never
looks up outside the alphabet. -/
theorem baseBuffer_entry_valid (s n L idx : ℕ) (m : ScrambleMap)
    (hL : 1 ≤ L) (hi : idx < n) (hnone : mapGet m idx = none) :
    renderedGlyphIndex m (baseBuffer s n L) idx < L := by
  unfold renderedGlyphIndex
  rw [hnone]
  exact baseBuffer_getD_lt s n L idx hL hi

/-- C10 witness: the glyph rendered for the non-scrambled cell 2 of a 4-cell
buffer over the 36-glyph alphabet is a valid index. -/
theorem baseBuffer_entry_valid_witness :
    renderedGlyphIndex [] (baseBuffer (initState 5) 4 36) 2 < 36 :=
  baseBuffer_entry_valid (initState 5) 4 36 2 [] (by norm_num) (by norm_num) rfl

/-- C1: the grid computation is deterministic — two invocations with
identical inputs (window size feeding the seed, canvas CSS size, device
pixel ratio, density, glyph alphabet length) produce identical base glyph
buffers. -/
theorem computeGrid_deterministic (w1 w2 h1 h2 : ℕ) (wc1 wc2 hc1 hc2 dpr1 dpr2 : ℚ)
    (d1 d2 : Option ℚ) (L1 L2 : ℕ)
    (hw : w1 = w2) (hh : h1 = h2) (hwc : wc1 = wc2) (hhc : hc1 = hc2)
    (hdpr : dpr1 = dpr2) (hd : d1 = d2) (hL : L1 = L2) :
    (computeGridRun w1 h1 wc1 hc1 dpr1 d1 L1).buf =
      (computeGridRun w2 h2 wc2 hc2 dpr2 d2 L2).buf := by
  subst hw hh hwc hhc hdpr hd hL
  rfl

/-- C1 witness: two grid computations at viewport 1024×768 with the default
density and the 36-glyph alphabet yield the same buffer. -/
theorem computeGrid_deterministic_witness :
    (computeGridRun 1024 768 1024 768 1 none 36).buf =
      (computeGridRun 1024 768 1024 768 1 none 36).buf :=
  computeGrid_deterministic 1024 1024 768 768 1024 1024 768 768 1 1 none none 36 36
    rfl rfl rfl rfl rfl rfl rfl

theorem mapGet_isSome_iff (m : ScrambleMap) (k : ℕ) :
    (mapGet m k).isSome = true ↔ ∃ p ∈ m, p.1 = k := by
  unfold mapGet
  simp [List.find?_isSome]

theorem mapPurge_mem {m : ScrambleMap} {now : ℚ} {p : ℕ × ScrambleCell}
    (h : p ∈ mapPurge m now) : p ∈ m ∧ now < p.2.untilMs := by
  unfold mapPurge at h
  rw [List.mem_filter] at h
  refine ⟨h.1, ?_⟩
  have h2 := h.2
  simp only [Bool.not_eq_true', decide_eq_false_iff_not, not_le] at h2
  exact h2

theorem mapPurge_get_lt {m : ScrambleMap} {now : ℚ} {k : ℕ} {e : ScrambleCell}
    (h : mapGet (mapPurge m now) k = some e) : now < e.untilMs := by
  unfold mapGet at h
  obtain ⟨p, hfind, hsnd⟩ := Option.map_eq_some'.mp h
  have hmem := List.mem_of_find?_eq_some hfind
  have := (mapPurge_mem hmem).2
  rw [hsnd] at this
  exact this

theorem mem_mapSet {m : ScrambleMap} {k : ℕ} {v : ScrambleCell}
    {p : ℕ × ScrambleCell} (h : p ∈ mapSet m k v) : p = (k, v) ∨ p ∈ m := by
  unfold mapSet at h
  rcases List.mem_cons.mp h with h | h
  · exact Or.inl h
  · exact Or.inr (List.mem_filter.mp h).1

theorem foldl_mapSet_mem (l : List ℕ) (m : ScrambleMap) (fidx : ℕ → ℕ)
    (fcell : ℕ → ScrambleCell) (p : ℕ × ScrambleCell)
    (h : p ∈ l.foldl (fun acc i => mapSet acc (fidx i) (fcell i)) m) :
    p ∈ m ∨ ∃ i ∈ l, p.1 = fidx i := by
  induction l generalizing m with
  | nil => exact Or.inl h
  | cons a as ih =>
    rw [List.foldl_cons] at h
    rcases ih (mapSet m (fidx a) (fcell a)) h with h1 | ⟨i, hi, he⟩
    · rcases mem_mapSet h1 with rfl | h3
      · exact Or.inr ⟨a, List.mem_cons_self a as, rfl⟩
      · exact Or.inl h3
    · exact Or.inr ⟨i, List.mem_cons_of_mem a hi, he⟩

theorem insertBatch_mem {m : ScrambleMap} {oracle : ℕ → ℚ × ℚ × ℚ}
    {count totalCells L : ℕ} {now : ℚ} {p : ℕ × ScrambleCell}
    (h : p ∈ insertBatch m oracle count totalCells L now) :
    p ∈ m ∨ ∃ i, p.1 = batchIdx oracle totalCells i := by
  unfold insertBatch at h
  rcases foldl_mapSet_mem _ _ _ _ _ h with h1 | ⟨i, _, he⟩
  · exact Or.inl h1
  · exact Or.inr ⟨i, he⟩

theorem burstP_default : burstP ⟨2/25, 2/25, false, false⟩ 1 = 11/625 := by
  unfold burstP effectiveScrambleBase clamp
  norm_num

theorem batchIdx_lt (oracle : ℕ → ℚ × ℚ × ℚ) (totalCells i : ℕ)
    (h0 : 0 ≤ (oracle i).1) (h1 : (oracle i).1 < 1) (hpos : 0 < totalCells) :
    batchIdx oracle totalCells i < totalCells := by
  unfold batchIdx
  have hT : (0 : ℚ) < totalCells := by exact_mod_cast hpos
  have hq : (oracle i).1 * totalCells < totalCells := by nlinarith
  have hfl : ⌊(oracle i).1 * (totalCells : ℚ)⌋ < (totalCells : ℤ) :=
    Int.floor_lt.mpr (by exact_mod_cast hq)
  omega

/-- C2 (amended): provided the grid is non-empty (`cols * rows > 0`), every
cell index present in the scramble map after a frame step either was
already a key before the step or is a freshly inserted valid index
`0 ≤ idx < totalCells` (the oracle draws being `Math.random()` values in
`[0,1)`). -/
theorem scramble_indices_valid (cfg : FrameCfg) (m : ScrambleMap)
    (v gate now : ℚ) (oracle : ℕ → ℚ × ℚ × ℚ) (totalCells L : ℕ)
    (horacle : ∀ i, 0 ≤ (oracle i).1 ∧ (oracle i).1 < 1)
    (hpos : 0 < totalCells) (k : ℕ) (e : ScrambleCell)
    (hget : mapGet (scramblePhase cfg m v gate oracle now totalCells L) k = some e) :
    (mapGet m k).isSome = true ∨ k < totalCells := by
  unfold scramblePhase at hget
  by_cases hr : cfg.reduced
  · rw [if_pos hr] at hget
    simp [mapGet] at hget
  · rw [if_neg hr] at hget
    unfold mapGet at hget
    obtain ⟨p, hfind, hsnd⟩ := Option.map_eq_some'.mp hget
    have hkey : p.1 = k := by
      have h := List.find?_some hfind
      simpa using h
    have hmem := (mapPurge_mem (List.mem_of_find?_eq_some hfind)).1
    by_cases hcond : 1/200 < burstP cfg v ∧ gate < 17/20
    · rw [if_pos hcond] at hmem
      rcases insertBatch_mem hmem with h1 | ⟨i, he⟩
      · exact Or.inl ((mapGet_isSome_iff m k).mpr ⟨p, h1, hkey⟩)
      · refine Or.inr ?_
        rw [← hkey, he]
        exact batchIdx_lt oracle totalCells i (horacle i).1 (horacle i).2 hpos
    · rw [if_neg hcond] at hmem
      exact Or.inl ((mapGet_isSome_iff m k).mpr ⟨p, hmem, hkey⟩)

/-- C2 amended-claim witness: on a 2×2 grid, a burst driven by the draw
`1/2` inserts index 2, which is a valid cell index. -/
theorem scramble_indices_valid_witness :
    (mapGet [] 2).isSome = true ∨ 2 < 4 :=
  scramble_indices_valid ⟨2/25, 2/25, false, false⟩ [] 1 0 0
    (fun _ => (1/2, 0, 0)) 4 36
    (fun _ => ⟨by norm_num, by norm_num⟩) (by norm_num) 2 ⟨0, 200⟩ (by
      unfold scramblePhase
      rw [burstP_default]
      norm_num [scrambleCount, insertBatch, batchIdx, batchCell, mapSet, mapGet,
        mapPurge, clamp, List.range_succ, List.range_zero,
        List.foldl_cons, List.foldl_nil, List.find?_cons, List.filter]
      exact ⟨2, rfl⟩)

/-- C2 counterexample: with a grid of `cols = 0, rows = 0` (so
`totalCells = 0 * 0 = 0`) and scrolling fast enough to pass the burst gate,
the frame still inserts an entry at index 0 — because
`count = Math.max(1, ...)` forces at least one insertion and
`Math.floor(Math.random() * 0) = 0` — and `0 < 0 * 0` is false, so the
inserted index is not a valid cell index. -/
theorem scramble_zero_grid_counterexample :
    mapGet (scramblePhase ⟨2/25, 2/25, false, false⟩ [] 1 0
        (fun _ => (0, 0, 0)) 0 (0 * 0) 36) 0 = some ⟨0, 200⟩ ∧
      ¬ ((0 : ℕ) < 0 * 0) := by
  constructor
  · unfold scramblePhase
    rw [burstP_default]
    norm_num [scrambleCount, insertBatch, batchIdx, batchCell, mapSet, mapGet,
      mapPurge, clamp, List.range_succ, List.range_zero, List.foldl_cons,
      List.foldl_nil, List.find?_cons, List.filter]
  · decide

/-- C8: when reduced motion is active, the frame's scramble phase leaves the
scramble set empty (it clears instead of inserting) and the parallax target
is 0 for every scroll position. -/
theorem reduced_motion_quiescent (cfg : FrameCfg) (m : ScrambleMap)
    (v gate y now : ℚ) (oracle : ℕ → ℚ × ℚ × ℚ) (totalCells L : ℕ)
    (hred : cfg.reduced = true) :
    scramblePhase cfg m v gate oracle now totalCells L = [] ∧
      parallaxTarget cfg y = 0 := by
  unfold scramblePhase parallaxTarget
  rw [hred]
  simp

/-- C8 witness: with reduced motion on, a frame starting from a non-empty
scramble map ends with an empty one, and the parallax target at scroll
position 500 is 0. -/
theorem reduced_motion_quiescent_witness :
    scramblePhase ⟨2/25, 2/25, true, false⟩ [(3, ⟨1, 500⟩)] 1 0
        (fun _ => (0, 0, 0)) 0 4 36 = [] ∧
      parallaxTarget ⟨2/25, 2/25, true, false⟩ 500 = 0 :=
  reduced_motion_quiescent ⟨2/25, 2/25, true, false⟩ [(3, ⟨1, 500⟩)] 1 0 500 0
    (fun _ => (0, 0, 0)) 4 36 rfl

/-- C9: a scramble entry is never rendered past its expiry — any entry still
present in the scramble map after a frame step at time `now` (the map the
render pass reads through `renderedGlyphIndex`) has `now < until`, so at
every frame with timestamp ≥ `until` the entry has been purged. -/
theorem scramble_expiry_respected (cfg : FrameCfg) (m : ScrambleMap)
    (v gate now : ℚ) (oracle : ℕ → ℚ × ℚ × ℚ) (totalCells L : ℕ)
    (idx : ℕ) (e : ScrambleCell)
    (hget : mapGet (scramblePhase cfg m v gate oracle now totalCells L) idx = some e) :
    now < e.untilMs := by
  unfold scramblePhase at hget
  by_cases hr : cfg.reduced
  · rw [if_pos hr] at hget
    simp [mapGet] at hget
  · rw [if_neg hr] at hget
    exact mapPurge_get_lt hget

/-- C9 witness: the entry surviving a concrete frame at time 0 expires at
200, which is still in the future. -/
theorem scramble_expiry_respected_witness : (0 : ℚ) < 200 :=
  scramble_expiry_respected ⟨2/25, 2/25, false, false⟩ [] 1 0 0
    (fun _ => (0, 0, 0)) 4 36 0 ⟨0, 200⟩ (by
      unfold scramblePhase
      rw [burstP_default]
      norm_num [scrambleCount, insertBatch, batchIdx, batchCell, mapSet, mapGet,
        mapPurge, clamp, List.range_succ, List.range_zero, List.foldl_cons,
        List.foldl_nil, List.find?_cons, List.filter])

/-- C7: for every viewport size, the centering offsets satisfy
`offsetX ≥ 0`, `offsetY ≥ 0` and `offsetX ≤ cell` (no nonnegativity
assumption on the dimensions is even needed). -/
theorem grid_offsets_bounds (w h : ℚ) (density : Option ℚ) (m : Bool) :
    0 ≤ (computeGridMetrics w h density m).offsetX ∧
    0 ≤ (computeGridMetrics w h density m).offsetY ∧
    ((computeGridMetrics w h density m).offsetX : ℚ) ≤
      (computeGridMetrics w h density m).cell := by
  have hc : 0 < (computeGridMetrics w h density m).cell := by
    rw [computeGridMetrics_cell]; exact cellSize_pos _
  have hremX : 0 ≤ w - ((computeGridMetrics w h density m).cols : ℚ) *
      (computeGridMetrics w h density m).cell := by
    rw [computeGridMetrics_cols]
    have := floor_div_mul_le (w := w) hc
    linarith
  have hremY : 0 ≤ h - ((computeGridMetrics w h density m).rows : ℚ) *
      (computeGridMetrics w h density m).cell := by
    rw [computeGridMetrics_rows]
    have := floor_div_mul_le (w := h) hc
    linarith
  refine ⟨?_, ?_, ?_⟩
  · rw [computeGridMetrics_offsetX]
    exact Int.le_floor.mpr (by push_cast; linarith)
  · rw [computeGridMetrics_offsetY]
    exact Int.le_floor.mpr (by push_cast; linarith)
  · rw [computeGridMetrics_offsetX]
    have hltX : w - ((computeGridMetrics w h density m).cols : ℚ) *
        (computeGridMetrics w h density m).cell <
        (computeGridMetrics w h density m).cell := by
      rw [computeGridMetrics_cols]
      exact sub_floor_div_mul_lt_self hc
    have hfl := Int.floor_le ((w - ((computeGridMetrics w h density m).cols : ℚ) *
      (computeGridMetrics w h density m).cell) / 2)
    linarith
